import Mathlib

/-!
Verification of the gamehub-server review/favorite/catalog core.

The definitions below are a shallow embedding of the JavaScript source:

* `src/services/favoriteService.js` (FavoriteService, GameService, ReviewService)
* `src/models/Game.js`, the review schema and the favorite schema
* `src/controllers/reviewController.js`, `src/controllers/userController.js`
* `src/routes/admin.js` (game deletion, review moderation)
* `src/utils/helpers.js` (sanitizeSearchQuery)

Mongo documents are modelled as Lean structures, collections as lists, and a
database snapshot as a record of those lists.  Fallible request handlers are
modelled with `Except`.  JavaScript numbers are modelled with `Nat`/`ℚ`
(ratings are integers 1..5, averages exact rationals; the float rounding of
`Math.round` at these magnitudes matches the rational computation).
-/

namespace GameHub

/-- JavaScript `Math.round`: rounds to the nearest integer, halves toward
positive infinity, i.e. `⌊x + 1/2⌋`. -/
def jsRound (x : ℚ) : ℤ := ⌊x + 1/2⌋

/-- Models `Math.round(x * 100) / 100` — the 2-decimal rounding used by
`ReviewService.updateGameRating`. -/
def roundTo2 (x : ℚ) : ℚ := (jsRound (x * 100) : ℚ) / 100

/-- Models `Math.round(x * 10) / 10` — the 1-decimal rounding used by the admin
review-moderation route; `Number(x.toFixed(1))` in `deleteAccount` computes
the same value for the nonnegative averages that occur here. -/
def roundTo1 (x : ℚ) : ℚ := (jsRound (x * 10) : ℚ) / 10

/-- Strip leading and trailing whitespace from a character list. -/
def trimChars (l : List Char) : List Char :=
  ((l.dropWhile Char.isWhitespace).reverse.dropWhile Char.isWhitespace).reverse

/-- JavaScript `String.prototype.trim` (as used by the `express-validator`
`trim()` sanitizer and the review schema's `trim: true`). -/
def jsTrim (s : String) : String := String.mk (trimChars s.data)

/-- A user document (`models/User.js`): only the fields the verified
operations read.  `avatar` is the Cloudinary/Google photo URL or null. -/
structure User where
  id : Nat
  avatar : Option String
deriving DecidableEq, Repr

/-- A game document (`models/Game.js`): only the fields the verified
operations read, plus the denormalized aggregate fields. -/
structure Game where
  id : Nat
  title : String
  shortDescription : String
  averageRating : ℚ
  totalReviews : Nat
deriving DecidableEq, Repr

/-- A review document (the review schema: `userId`, `gameId`,
`rating` (1..5), `content` (max length 1000), timestamps). -/
structure Review where
  id : Nat
  userId : Nat
  gameId : Nat
  rating : Nat
  content : String
  createdAt : Nat
deriving DecidableEq, Repr

/-- A favorite document (`models/Favorite.js`: `userId`, `gameId`,
`addedAt` defaulting to the current time). -/
structure Favorite where
  userId : Nat
  gameId : Nat
  addedAt : Nat
deriving DecidableEq, Repr

/-- A snapshot of the four Mongo collections. -/
structure DB where
  users : List User
  games : List Game
  reviews : List Review
  favorites : List Favorite
deriving DecidableEq, Repr

/-- Models `Review.find({ gameId })`. -/
def reviewsFor (reviews : List Review) (gameId : Nat) : List Review :=
  reviews.filter (fun r => r.gameId == gameId)

/-- Models `reviews.reduce((sum, review) => sum + review.rating, 0)`. -/
def ratingSum (l : List Review) : Nat := (l.map (fun r => r.rating)).sum

/-- Models `totalReviews > 0 ? sum / totalReviews : 0` — the unrounded mean. -/
def meanRating (l : List Review) : ℚ :=
  if 0 < l.length then (ratingSum l : ℚ) / (l.length : ℚ) else 0

/-- Models `Game.updateRating` / `Game.findByIdAndUpdate`: write the aggregate
fields of the game with the given id (no-op when no game matches). -/
def setGameRating (games : List Game) (gameId : Nat) (avg : ℚ) (total : Nat) :
    List Game :=
  games.map (fun g =>
    if g.id == gameId then { g with averageRating := avg, totalReviews := total }
    else g)

/-- Models `ReviewService.updateGameRating(gameId)`: read every review for the game,
compute the count and the mean (0 when there are none), round the mean to two
decimals, and write both aggregate fields back to the game. -/
def updateGameRating (db : DB) (gameId : Nat) : DB :=
  let rs := reviewsFor db.reviews gameId
  { db with games := setGameRating db.games gameId (roundTo2 (meanRating rs)) rs.length }

/-- The compound filter `{ userId, gameId }` used by the unique review index
and by `Review.findOne` in the review service. -/
def isPair (userId gameId : Nat) (r : Review) : Bool :=
  r.userId == userId && r.gameId == gameId

/-- Number of stored reviews for one (user, game) pair. -/
def pairCount (reviews : List Review) (userId gameId : Nat) : Nat :=
  (reviews.filter (isPair userId gameId)).length

/-- The unique compound index `{ userId: 1, gameId: 1 }` of the review
schema: no two stored reviews share a (user, game) pair. -/
def UniquePairs (reviews : List Review) : Prop :=
  List.Pairwise (fun a b => a.userId ≠ b.userId ∨ a.gameId ≠ b.gameId) reviews

/-- Models `findOne` followed by mutating `.save()`: rewrite the first document
matching the predicate, leave the rest untouched. -/
def updateFirstReview (p : Review → Bool) (f : Review → Review) :
    List Review → List Review
  | [] => []
  | r :: rs => if p r then f r :: rs else r :: updateFirstReview p f rs

/-- Error kinds of the review submission endpoint
(`POST /api/reviews/:gameId`): 400 on validator failure, 404 on a missing
game. -/
inductive ReviewError where
  | validationFailed
  | notFound
deriving DecidableEq, Repr

/-- The `validateReview` rules (`middleware/validation.js`): `rating` an
integer in [1,5], `content` trimmed to between 1 and 1000 characters. -/
def validReviewInput (rating : Nat) (content : String) : Bool :=
  1 ≤ rating && rating ≤ 5 &&
    1 ≤ (jsTrim content).length && (jsTrim content).length ≤ 1000

/-- What `ReviewService.createOrUpdateReview` returns: the new database
snapshot, the resulting review, and the `isNewReview` flag. -/
structure SubmitResult where
  db : DB
  review : Review
  isNewReview : Bool
deriving DecidableEq, Repr

/-- Models `review.rating = rating; review.content = content; review.save()` —
the mutation applied to the existing review on the update path. -/
def overwriteReview (rating : Nat) (content : String) (x : Review) : Review :=
  { x with rating := rating, content := jsTrim content }

/-- Models `reviewController.createOrUpdateReview` + `ReviewService.createOrUpdateReview`:
validate the input, check the game exists, then either overwrite the
existing review for the (user, game) pair or insert a new one, and finally
recompute the game's aggregate.  `newId`/`now` stand for the generated
document id and the creation timestamp. -/
def submitReview (db : DB) (userId gameId rating : Nat) (content : String)
    (newId now : Nat) : Except ReviewError SubmitResult :=
  if !(validReviewInput rating content) then .error .validationFailed
  else if !(db.games.any (fun g => g.id == gameId)) then .error .notFound
  else
    match db.reviews.find? (isPair userId gameId) with
    | some r =>
      .ok { db := updateGameRating
              { db with reviews := (updateFirstReview (isPair userId gameId)
                  (overwriteReview rating content) db.reviews) } gameId,
            review := overwriteReview rating content r, isNewReview := false }
    | none =>
      .ok { db := updateGameRating
              { db with reviews :=
                  (db.reviews ++ [⟨newId, userId, gameId, rating,
                    jsTrim content, now⟩]) } gameId,
            review := ⟨newId, userId, gameId, rating, jsTrim content, now⟩,
            isNewReview := true }

/-- Reviews ordered newest-first: `.sort({ createdAt: -1 })`. -/
def newerFirst (a b : Review) : Prop := b.createdAt ≤ a.createdAt

instance : IsTotal Review newerFirst :=
  ⟨fun a b => (le_total b.createdAt a.createdAt).imp (fun h => h) (fun h => h)⟩

instance : IsTrans Review newerFirst :=
  ⟨fun _ _ _ h1 h2 => le_trans h2 h1⟩

instance : DecidableRel newerFirst := fun a b => Nat.decLe b.createdAt a.createdAt

/-- Sorting a review list newest-first. -/
def sortNewestFirst (l : List Review) : List Review := l.insertionSort newerFirst

/-- Models `ReviewService.getGameReviews(gameId, userId)`: with a requesting user,
fetch that user's review (if any) plus the other reviews newest-first and
put the user's review in front; without one, all reviews newest-first. -/
def getGameReviews (reviews : List Review) (gameId : Nat) (userId : Option Nat) :
    List Review :=
  match userId with
  | some u =>
    let others :=
      sortNewestFirst (reviews.filter (fun r => r.gameId == gameId && r.userId != u))
    match reviews.find? (isPair u gameId) with
    | some ur => ur :: others
    | none => others
  | none => sortNewestFirst (reviewsFor reviews gameId)

/-- Error kind of the admin routes: 404 when the addressed document is
missing. -/
inductive AdminError where
  | notFound
deriving DecidableEq, Repr

/-- Models `DELETE /api/admin/reviews/:id` (`routes/admin.js`): 404 if the review
does not exist; otherwise delete it, recompute the game's aggregate from the
remaining reviews and store the average rounded to ONE decimal. -/
def adminDeleteReview (db : DB) (reviewId : Nat) : Except AdminError DB :=
  match db.reviews.find? (fun r => r.id == reviewId) with
  | none => .error .notFound
  | some review =>
    let reviews' := db.reviews.eraseP (fun r => r.id == reviewId)
    let rs := reviewsFor reviews' review.gameId
    .ok { db with
      reviews := reviews',
      games := setGameRating db.games review.gameId (roundTo1 (meanRating rs)) rs.length }

/-- The untyped value of one document field, for modelling Mongo filters
that address fields by name. -/
inductive FieldVal where
  | nat (n : Nat)
  | str (s : String)
deriving DecidableEq, Repr

/-- The named fields a stored review document actually has (the review
schema defines `userId`, `gameId`, `rating`, `content`, plus `_id` and the
timestamps).  There is no field named `game`. -/
def reviewDocField (r : Review) : String → Option FieldVal
  | "_id" => some (.nat r.id)
  | "userId" => some (.nat r.userId)
  | "gameId" => some (.nat r.gameId)
  | "rating" => some (.nat r.rating)
  | "content" => some (.str r.content)
  | "createdAt" => some (.nat r.createdAt)
  | _ => none

/-- Models `DELETE /api/admin/games/:id` (`routes/admin.js`): 404 if the game does
not exist; otherwise run `Review.deleteMany({ game: gameId })` — which
deletes the documents whose `game` field equals `gameId`; the schema path is
`gameId`, not `game`, and mongoose v8 (`strictQuery` false by default, not
overridden anywhere in the source) passes the unknown path through to
MongoDB — and then delete the game itself. -/
def adminDeleteGame (db : DB) (gameId : Nat) : Except AdminError DB :=
  if db.games.any (fun g => g.id == gameId) then
    .ok { db with
      reviews := db.reviews.filter
        (fun r => !(reviewDocField r "game" == some (.nat gameId))),
      games := db.games.eraseP (fun g => g.id == gameId) }
  else .error .notFound

/-- Error kinds of `DELETE /api/users/profile`: 404 when the user record is
missing, 500 (`Unexpected`) when the handler throws. -/
inductive AccountError where
  | notFound
  | unexpected
deriving DecidableEq, Repr

/-- The cascade part of `userController.deleteAccount` (runs when the
avatar branch is not taken): for every game the user reviewed, rewrite the
aggregate from the reviews of the other users (average rounded to one
decimal via `toFixed(1)`), then delete the user's reviews, the user's
favorites and the user record. -/
def deleteAccountCascade (db : DB) (userId : Nat) : Except AccountError DB :=
  let userReviews := db.reviews.filter (fun r => r.userId == userId)
  let games1 := userReviews.foldl
    (fun gs r =>
      let others := db.reviews.filter
        (fun x => x.gameId == r.gameId && x.userId != userId)
      setGameRating gs r.gameId (roundTo1 (meanRating others)) others.length)
    db.games
  .ok { db with
    games := games1,
    reviews := db.reviews.filter (fun r => !(r.userId == userId)),
    favorites := db.favorites.filter (fun f => !(f.userId == userId)),
    users := db.users.eraseP (fun u => u.id == userId) }

/-- Models `userController.deleteAccount`: look the user up (404 if missing); if
the user has a non-empty avatar the handler evaluates `path.join(...)` — but
`controllers/userController.js` never requires `path` (or `fs`), so this
raises `ReferenceError`, is caught, and the request fails with 500 before
anything is deleted.  Otherwise run the cascade. -/
def deleteAccount (db : DB) (userId : Nat) : Except AccountError DB :=
  match db.users.find? (fun u => u.id == userId) with
  | none => .error .notFound
  | some user =>
    match user.avatar with
    | some s =>
      if s = "" then deleteAccountCascade db userId else .error .unexpected
    | none => deleteAccountCascade db userId

/-- Error kinds of the favorite endpoints: `notFound` is the 404 path
("Game not found" / "Game not found in favorites"), `conflict` the
duplicate-favorite path ("Game is already in your favorites"). -/
inductive FavError where
  | notFound
  | conflict
deriving DecidableEq, Repr

/-- The compound filter `{ userId, gameId }` on favorites. -/
def isFavPair (userId gameId : Nat) (f : Favorite) : Bool :=
  f.userId == userId && f.gameId == gameId

/-- The unique compound index `{ userId: 1, gameId: 1 }` of the favorite
schema. -/
def UniqueFavoritePairs (favorites : List Favorite) : Prop :=
  List.Pairwise (fun a b => a.userId ≠ b.userId ∨ a.gameId ≠ b.gameId) favorites

/-- Models `FavoriteService.addToFavorites`: game must exist, pair must not already
be a favorite, then insert with the current timestamp (`addedAt` defaults to
`Date.now`). -/
def addToFavorites (db : DB) (userId gameId now : Nat) : Except FavError DB :=
  if !(db.games.any (fun g => g.id == gameId)) then .error .notFound
  else if db.favorites.any (isFavPair userId gameId) then .error .conflict
  else .ok { db with favorites := db.favorites ++ [⟨userId, gameId, now⟩] }

/-- Models `FavoriteService.removeFromFavorites`: `findOneAndDelete({userId, gameId})`,
404 when nothing matched. -/
def removeFromFavorites (db : DB) (userId gameId : Nat) : Except FavError DB :=
  if db.favorites.any (isFavPair userId gameId) then
    .ok { db with favorites := db.favorites.eraseP (isFavPair userId gameId) }
  else .error .notFound

/-- The regex metacharacters escaped by `sanitizeSearchQuery`
(`/[.*+?^${}()|[\]\\]/g` in `utils/helpers.js`). -/
def regexSpecialChars : List Char :=
  ['.', '*', '+', '?', '^', '$', Char.ofNat 123, Char.ofNat 125,
   '(', ')', '|', '[', ']', '\\']

/-- Models `sanitizeSearchQuery` (`utils/helpers.js`): trim, escape every regex
metacharacter with a backslash, cap the result at 100 characters. -/
def sanitizeSearchQuery (query : String) : String :=
  String.mk
    (((trimChars query.data).foldr
        (fun c acc =>
          if c ∈ regexSpecialChars then '\\' :: c :: acc else c :: acc)
        []).take 100)

/-- The regex pattern `GameService.searchGames` actually hands to
`new RegExp(search, "i")` for the title/shortDescription match: the raw
user-supplied search string.  `sanitizeSearchQuery` is never called on this
path (nor anywhere else in the source). -/
def searchGamesPattern (search : String) : String := search

/-- A minimal well-formedness requirement on regex patterns: every unescaped
`(` needs a matching unescaped `)`.  A pattern violating this makes
`new RegExp` throw a `SyntaxError`. -/
def parensOk : List Char → Nat → Bool
  | [], 0 => true
  | [], _ + 1 => false
  | '\\' :: _ :: rest, d => parensOk rest d
  | '(' :: rest, d => parensOk rest (d + 1)
  | ')' :: _, 0 => false
  | ')' :: rest, d + 1 => parensOk rest d
  | _ :: rest, d => parensOk rest d

/-- Well-formedness of a full regex pattern string (parenthesis balance). -/
def regexParensOk (s : String) : Bool := parensOk s.data 0

/-- Models `(page - 1) * limit` — the skip computed by `GameService.searchGames`
and `FavoriteService.getUserFavorites` from the UNCLAMPED requested page
size. -/
def skipOf (page limit : Nat) : Nat := (page - 1) * limit

/-- Models `Math.ceil(total / safeLimit)` for a positive `safeLimit`. -/
def ceilDiv (n s : Nat) : Nat := (n + s - 1) / s

/-- Insert into a list sorted by the boolean comparator. -/
def orderedInsertBy {α : Type} (le : α → α → Bool) (a : α) : List α → List α
  | [] => [a]
  | b :: l => if le a b then a :: b :: l else b :: orderedInsertBy le a l

/-- Sort by a boolean comparator (models the Mongo `.sort(...)` stage; the
comparator is the one built from the request's sort key). -/
def sortListBy {α : Type} (le : α → α → Bool) : List α → List α
  | [] => []
  | b :: l => orderedInsertBy le b (sortListBy le l)

/-- The pagination metadata block returned by `GameService.searchGames`. -/
structure Pagination where
  currentPage : Nat
  totalPages : Nat
  totalGames : Nat
  gamesPerPage : Nat
  hasNextPage : Bool
  hasPreviousPage : Bool
deriving DecidableEq, Repr

/-- The payload of `GameService.searchGames`. -/
structure SearchResult where
  data : List Game
  pagination : Pagination
deriving DecidableEq, Repr

/-- Models `GameService.searchGames`: filter (built in the source from the
category/platform/search/tag regexes — abstracted here as the predicate
`filter`), sort (comparator built from `sortBy` — abstracted as `le`), then
paginate with `skip = (page - 1) * limit` and `safeLimit = min(limit, 100)`,
and report metadata computed from a parallel count of the same filter. -/
def searchGames (games : List Game) (filter : Game → Bool)
    (le : Game → Game → Bool) (page limit : Nat) : SearchResult :=
  let matching := games.filter filter
  let safeLimit := min limit 100
  let totalGames := matching.length
  let totalPages := ceilDiv totalGames safeLimit
  { data := ((sortListBy le matching).drop (skipOf page limit)).take safeLimit,
    pagination :=
      { currentPage := page, totalPages := totalPages, totalGames := totalGames,
        gamesPerPage := safeLimit,
        hasNextPage := decide (page < totalPages),
        hasPreviousPage := decide (1 < page) } }

/-- The pagination metadata block returned by
`FavoriteService.getUserFavorites`. -/
structure FavPagination where
  currentPage : Nat
  totalPages : Nat
  totalFavorites : Nat
  favoritesPerPage : Nat
  hasNextPage : Bool
  hasPreviousPage : Bool
deriving DecidableEq, Repr

/-- The payload of `FavoriteService.getUserFavorites`. -/
structure FavoritesPage where
  favorites : List Favorite
  pagination : FavPagination
deriving DecidableEq, Repr

/-- Most recently added first: `.sort({ addedAt: -1 })`. -/
def recentFirst (a b : Favorite) : Bool := b.addedAt ≤ a.addedAt

/-- Models `FavoriteService.getUserFavorites`: the user's favorites newest-first,
paginated with `skip = (page - 1) * limit` and `safeLimit = min(limit, 100)`. -/
def getUserFavorites (favorites : List Favorite) (userId page limit : Nat) :
    FavoritesPage :=
  let mine := favorites.filter (fun f => f.userId == userId)
  let safeLimit := min limit 100
  let totalFavorites := mine.length
  let totalPages := ceilDiv totalFavorites safeLimit
  { favorites := ((sortListBy recentFirst mine).drop (skipOf page limit)).take safeLimit,
    pagination :=
      { currentPage := page, totalPages := totalPages,
        totalFavorites := totalFavorites, favoritesPerPage := safeLimit,
        hasNextPage := decide (page < totalPages),
        hasPreviousPage := decide (1 < page) } }

/-! ### Helper lemmas -/

/-- Rounding zero to two decimals gives zero. -/
theorem roundTo2_zero : roundTo2 0 = 0 := by
  have h : ⌊(0:ℚ) * 100 + 1/2⌋ = (0:ℤ) := by
    rw [Int.floor_eq_iff]
    norm_num
  rw [roundTo2, jsRound, h]
  norm_num

/-- The mean of an empty review list is zero. -/
theorem meanRating_eq_zero (l : List Review) (h : l.length = 0) : meanRating l = 0 := by
  simp [meanRating, h]

/-- Lemma: `updateGameRating` touches only the games collection. -/
theorem updateGameRating_reviews (db : DB) (gid : Nat) :
    (updateGameRating db gid).reviews = db.reviews := rfl

/-- After `updateGameRating db gid`, the game with id `gid` carries the
count and the rounded mean of the reviews for `gid`. -/
theorem updateGameRating_games_spec (db : DB) (gid : Nat) (g : Game)
    (hg : g ∈ (updateGameRating db gid).games) (hid : g.id = gid) :
    g.totalReviews = (reviewsFor db.reviews gid).length ∧
    g.averageRating = roundTo2 (meanRating (reviewsFor db.reviews gid)) := by
  simp only [updateGameRating, setGameRating] at hg
  obtain ⟨g0, hg0, heq⟩ := List.mem_map.mp hg
  by_cases h : (g0.id == gid) = true
  · rw [if_pos h] at heq
    subst heq
    exact ⟨rfl, rfl⟩
  · rw [if_neg h] at heq
    subst heq
    exact absurd (beq_iff_eq.mpr hid) h

/-- Unfolding the pair predicate on reviews. -/
theorem isPair_eq (u g : Nat) (r : Review) :
    isPair u g r = true ↔ r.userId = u ∧ r.gameId = g := by
  simp [isPair]

/-- A pairwise-distinct list keeps at most one element satisfying a
predicate that forces the distinguishing data to coincide. -/
theorem filter_length_le_one_of_pairwise {α : Type} (p : α → Bool)
    (R : α → α → Prop) (l : List α) (hpw : List.Pairwise R l)
    (hR : ∀ a b, R a b → p a = true → p b = true → False) :
    (l.filter p).length ≤ 1 := by
  induction l with
  | nil => simp
  | cons a l ih =>
    rcases List.pairwise_cons.mp hpw with ⟨ha, hl⟩
    by_cases hpa : p a = true
    · have hnil : l.filter p = [] := by
        rw [List.filter_eq_nil_iff]
        intro b hb hpb
        exact hR a b (ha b hb) hpa hpb
      simp [List.filter_cons, hpa, hnil]
    · simp only [List.filter_cons, hpa, if_false]
      exact ih hl

/-- Under the unique (user, game) index there is at most one review per
pair. -/
theorem pairCount_le_one (l : List Review) (u g : Nat) (h : UniquePairs l) :
    pairCount l u g ≤ 1 := by
  refine filter_length_le_one_of_pairwise _ _ l h ?_
  intro a b hab hpa hpb
  rcases isPair_eq u g a |>.mp hpa with ⟨ha1, ha2⟩
  rcases isPair_eq u g b |>.mp hpb with ⟨hb1, hb2⟩
  rcases hab with h1 | h2
  · exact h1 (ha1.trans hb1.symm)
  · exact h2 (ha2.trans hb2.symm)

/-- When `findOne` finds the review of a pair and the unique index holds,
that review is the only one for the pair. -/
theorem filter_pair_eq_of_find? (l : List Review) (u g : Nat) (r : Review)
    (huniq : UniquePairs l) (hf : l.find? (isPair u g) = some r) :
    l.filter (isPair u g) = [r] := by
  have hr : r ∈ l := List.mem_of_find?_eq_some hf
  have hpr : isPair u g r = true := List.find?_some hf
  have hmem : r ∈ l.filter (isPair u g) := List.mem_filter.mpr ⟨hr, hpr⟩
  have hle : (l.filter (isPair u g)).length ≤ 1 := pairCount_le_one l u g huniq
  match hfl : l.filter (isPair u g) with
  | [] => rw [hfl] at hmem; cases hmem
  | [x] =>
    rw [hfl] at hmem
    have : r = x := by simpa using hmem
    rw [this]
  | x :: y :: t => rw [hfl] at hle; simp at hle

/-- Rewriting the first matching review with a match-preserving function
keeps the number of matching reviews. -/
theorem updateFirstReview_filter_length (p : Review → Bool) (f : Review → Review)
    (hf : ∀ x, p x = true → p (f x) = true) (l : List Review) :
    ((updateFirstReview p f l).filter p).length = (l.filter p).length := by
  induction l with
  | nil => rfl
  | cons r rs ih =>
    by_cases h : p r = true
    · simp [updateFirstReview, h, List.filter_cons, hf r h]
    · simp [updateFirstReview, h, List.filter_cons, ih]

/-- The review rewritten by `findOne` + `.save()` is in the updated list. -/
theorem find?_updateFirstReview_mem (p : Review → Bool) (f : Review → Review)
    (l : List Review) (r : Review) (hf : l.find? p = some r) :
    f r ∈ updateFirstReview p f l := by
  induction l with
  | nil => simp at hf
  | cons a rs ih =>
    by_cases h : p a = true
    · rw [List.find?_cons_of_pos _ h] at hf
      have : a = r := by injection hf
      subst this
      simp [updateFirstReview, h]
    · rw [List.find?_cons_of_neg _ h] at hf
      simp only [updateFirstReview, h, if_false]
      exact List.mem_cons_of_mem a (ih hf)

/-- Every element of the updated list is an old element or the image of
one. -/
theorem mem_updateFirstReview (p : Review → Bool) (f : Review → Review)
    (l : List Review) (y : Review) (hy : y ∈ updateFirstReview p f l) :
    y ∈ l ∨ ∃ x, x ∈ l ∧ y = f x := by
  induction l with
  | nil => simp [updateFirstReview] at hy
  | cons a rs ih =>
    by_cases h : p a = true
    · rw [show updateFirstReview p f (a :: rs) = f a :: rs from by
        simp [updateFirstReview, h]] at hy
      rcases List.mem_cons.mp hy with h1 | h2
      · exact Or.inr ⟨a, List.mem_cons_self a rs, h1⟩
      · exact Or.inl (List.mem_cons_of_mem a h2)
    · rw [show updateFirstReview p f (a :: rs) = a :: updateFirstReview p f rs from by
        simp [updateFirstReview, h]] at hy
      rcases List.mem_cons.mp hy with h1 | h2
      · exact Or.inl (List.mem_cons.mpr (Or.inl h1))
      · rcases ih h2 with h3 | ⟨x, hx, h4⟩
        · exact Or.inl (List.mem_cons_of_mem a h3)
        · exact Or.inr ⟨x, List.mem_cons_of_mem a hx, h4⟩

/-- Rewriting the first matching review with a key-preserving function
preserves the unique (user, game) index. -/
theorem uniquePairs_updateFirstReview (p : Review → Bool) (f : Review → Review)
    (hf : ∀ x, (f x).userId = x.userId ∧ (f x).gameId = x.gameId)
    (l : List Review) (h : UniquePairs l) :
    UniquePairs (updateFirstReview p f l) := by
  induction l with
  | nil => exact h
  | cons a rs ih =>
    rcases List.pairwise_cons.mp h with ⟨ha, hrs⟩
    by_cases hp : p a = true
    · rw [show updateFirstReview p f (a :: rs) = f a :: rs by
        simp [updateFirstReview, hp]]
      refine List.pairwise_cons.mpr ⟨?_, hrs⟩
      intro b hb
      rcases ha b hb with h1 | h2
      · exact Or.inl (by rw [(hf a).1]; exact h1)
      · exact Or.inr (by rw [(hf a).2]; exact h2)
    · rw [show updateFirstReview p f (a :: rs) = a :: updateFirstReview p f rs by
        simp [updateFirstReview, hp]]
      refine List.pairwise_cons.mpr ⟨?_, ih hrs⟩
      intro b hb
      rcases mem_updateFirstReview p f rs b hb with h1 | ⟨x, hx, rfl⟩
      · exact ha b h1
      · rcases ha x hx with h1 | h2
        · exact Or.inl (by rw [(hf x).1]; exact h1)
        · exact Or.inr (by rw [(hf x).2]; exact h2)

/-- Inserting a review for a pair no existing review has preserves the
unique (user, game) index. -/
theorem uniquePairs_append (l : List Review) (r : Review) (h : UniquePairs l)
    (hnew : ∀ x ∈ l, x.userId ≠ r.userId ∨ x.gameId ≠ r.gameId) :
    UniquePairs (l ++ [r]) := by
  unfold UniquePairs at h ⊢
  rw [List.pairwise_append]
  refine ⟨h, List.pairwise_singleton _ _, ?_⟩
  intro x hx y hy
  have : y = r := by simpa using hy
  subst this
  exact hnew x hx

/-- Splitting a filter along a second predicate, up to permutation. -/
theorem filter_perm_split {α : Type} (p q : α → Bool) (l : List α) :
    List.Perm (l.filter p)
      ((l.filter fun x => p x && q x) ++ (l.filter fun x => p x && !q x)) := by
  induction l with
  | nil => simp
  | cons a l ih =>
    by_cases hp : p a = true
    · by_cases hq : q a = true
      · simpa [List.filter_cons, hp, hq] using ih.cons a
      · simp only [List.filter_cons, hp, hq, Bool.and_true, Bool.and_false,
          Bool.not_false, Bool.not_true, if_true, if_false]
        exact (ih.cons a).trans List.perm_middle.symm
    · simpa [List.filter_cons, hp] using ih

/-- Erasing the only matching element leaves no match. -/
theorem filter_eraseP_eq_nil {α : Type} (p : α → Bool) (l : List α)
    (hle : (l.filter p).length ≤ 1) :
    (l.eraseP p).filter p = [] := by
  induction l with
  | nil => rfl
  | cons a l ih =>
    by_cases hp : p a = true
    · rw [List.eraseP_cons_of_pos hp]
      rw [List.filter_cons_of_pos hp] at hle
      have : (l.filter p).length = 0 := by simpa using hle
      exact List.length_eq_zero.mp this
    · rw [List.eraseP_cons_of_neg (by simpa using hp), List.filter_cons_of_neg (by simpa using hp)]
      rw [List.filter_cons_of_neg (by simpa using hp)] at hle
      exact ih hle

/-- At most one favorite per (user, game) pair under the unique index. -/
theorem favPairCount_le_one (l : List Favorite) (u g : Nat)
    (h : UniqueFavoritePairs l) : (l.filter (isFavPair u g)).length ≤ 1 := by
  refine filter_length_le_one_of_pairwise _ _ l h ?_
  intro a b hab hpa hpb
  rcases (by simpa [isFavPair] using hpa : a.userId = u ∧ a.gameId = g) with ⟨ha1, ha2⟩
  rcases (by simpa [isFavPair] using hpb : b.userId = u ∧ b.gameId = g) with ⟨hb1, hb2⟩
  rcases hab with h1 | h2
  · exact h1 (ha1.trans hb1.symm)
  · exact h2 (ha2.trans hb2.symm)

/-- Inserting into a sorted-by-comparator list adds one element. -/
theorem length_orderedInsertBy {α : Type} (le : α → α → Bool) (a : α)
    (l : List α) : (orderedInsertBy le a l).length = l.length + 1 := by
  induction l with
  | nil => rfl
  | cons b l ih =>
    by_cases h : le a b = true
    · simp [orderedInsertBy, h]
    · simp [orderedInsertBy, h, ih]

/-- Sorting by a comparator preserves length. -/
theorem length_sortListBy {α : Type} (le : α → α → Bool) (l : List α) :
    (sortListBy le l).length = l.length := by
  induction l with
  | nil => rfl
  | cons b l ih => simp [sortListBy, length_orderedInsertBy, ih]

/-- Lemma: `Math.ceil(n / s) * s` dominates `n`. -/
theorem le_ceilDiv_mul (n s : ℕ) (hs : 0 < s) : n ≤ ceilDiv n s * s := by
  unfold ceilDiv
  have h1 := Nat.div_add_mod (n + s - 1) s
  have h2 := Nat.mod_lt (n + s - 1) hs
  set q := (n + s - 1) / s with hq
  set r := (n + s - 1) % s with hr
  have hc : q * s = s * q := Nat.mul_comm q s
  omega

/-! ### Claim theorems -/

/-- Claim C1: for every game, the rating-aggregator recompute operation
(`ReviewService.updateGameRating`) reads every review for that game and
writes back `totalReviews` equal to the count of those reviews and
`averageRating` equal to the mean of their ratings rounded to the chosen
fixed precision (two decimals), writing `averageRating = 0` when the count
is 0. -/
theorem C1_updateGameRating_recomputes (db : DB) (gameId : Nat) (g : Game)
    (hg : g ∈ (updateGameRating db gameId).games) (hid : g.id = gameId) :
    g.totalReviews = (reviewsFor db.reviews gameId).length ∧
    g.averageRating = roundTo2 (meanRating (reviewsFor db.reviews gameId)) ∧
    ((reviewsFor db.reviews gameId).length = 0 → g.averageRating = 0) := by
  obtain ⟨h1, h2⟩ := updateGameRating_games_spec db gameId g hg hid
  refine ⟨h1, h2, fun h0 => ?_⟩
  rw [h2, meanRating_eq_zero _ h0, roundTo2_zero]

/-- Concrete database for the C1 witness: one game, one review. -/
def dbW1 : DB :=
  { users := [], games := [⟨1, "t", "d", 0, 0⟩],
    reviews := [⟨1, 1, 1, 5, "ok", 1⟩], favorites := [] }

/-- The game record produced by the C1 witness run. -/
def gW1 : Game :=
  { id := 1, title := "t", shortDescription := "d",
    averageRating := roundTo2 (meanRating (reviewsFor dbW1.reviews 1)),
    totalReviews := 1 }

/-- Witness for C1 at a concrete database. -/
theorem C1_witness :
    gW1 ∈ (updateGameRating dbW1 1).games ∧ gW1.id = 1 ∧
    gW1.totalReviews = (reviewsFor dbW1.reviews 1).length := by
  have hmem : gW1 ∈ (updateGameRating dbW1 1).games := by
    rw [show (updateGameRating dbW1 1).games = [gW1] from rfl]
    exact List.mem_singleton.mpr rfl
  exact ⟨hmem, rfl, (C1_updateGameRating_recomputes dbW1 1 gW1 hmem rfl).1⟩

/-- Concrete game for the C3 evidence. -/
def gC3 : Game := ⟨1, "g", "d", 0, 0⟩

/-- Database on which the admin deletes review 4: the three surviving
reviews carry ratings 1, 1, 2. -/
def dbC3 : DB :=
  { users := [], games := [gC3],
    reviews := [⟨1, 1, 1, 1, "a", 1⟩, ⟨2, 2, 1, 1, "b", 2⟩,
                ⟨3, 3, 1, 2, "c", 3⟩, ⟨4, 4, 1, 5, "d", 4⟩],
    favorites := [] }

/-- The same review store after review 4 is gone — the input to the
review-service recompute. -/
def dbC3' : DB :=
  { users := [], games := [gC3],
    reviews := [⟨1, 1, 1, 1, "a", 1⟩, ⟨2, 2, 1, 1, "b", 2⟩,
                ⟨3, 3, 1, 2, "c", 3⟩],
    favorites := [] }

/-- The unrounded mean over the surviving reviews (4/3). -/
def avgC3 : ℚ := meanRating (reviewsFor dbC3'.reviews 1)

/-- Claim C3 (code-bug evidence): on the same surviving rating multiset
{1, 1, 2}, the review-service path stores the 2-decimal value 1.33 while
the admin review-moderation path stores the 1-decimal value 1.3 — two
different precisions for the same stored field. -/
theorem C3_mixed_rounding_precisions :
    (updateGameRating dbC3' 1).games =
      [{ gC3 with averageRating := roundTo2 avgC3, totalReviews := 3 }] ∧
    adminDeleteReview dbC3 4 =
      Except.ok { dbC3' with games :=
        [{ gC3 with averageRating := roundTo1 avgC3, totalReviews := 3 }] } ∧
    roundTo2 avgC3 = 133/100 ∧
    roundTo1 avgC3 = 13/10 ∧
    roundTo2 avgC3 ≠ roundTo1 avgC3 := by
  have havg : avgC3 = 4/3 := by
    show meanRating (reviewsFor dbC3'.reviews 1) = 4/3
    rw [show reviewsFor dbC3'.reviews 1 =
      [⟨1, 1, 1, 1, "a", 1⟩, ⟨2, 2, 1, 1, "b", 2⟩, ⟨3, 3, 1, 2, "c", 3⟩] from rfl]
    simp [meanRating, ratingSum]
  have h2 : roundTo2 avgC3 = 133/100 := by
    rw [havg, roundTo2, jsRound]
    rw [show ⌊(4:ℚ)/3 * 100 + 1/2⌋ = (133:ℤ) from by
      rw [Int.floor_eq_iff]
      norm_num]
    norm_num
  have h1 : roundTo1 avgC3 = 13/10 := by
    rw [havg, roundTo1, jsRound]
    rw [show ⌊(4:ℚ)/3 * 10 + 1/2⌋ = (13:ℤ) from by
      rw [Int.floor_eq_iff]
      norm_num]
    norm_num
  refine ⟨rfl, rfl, h2, h1, ?_⟩
  rw [h2, h1]
  norm_num

/-- Concrete game for the C4 evidence. -/
def gC4 : Game := ⟨1, "g", "d", 0, 0⟩

/-- A review that references game 1 through its `gameId` field. -/
def rC4 : Review := ⟨1, 1, 1, 5, "a", 1⟩

/-- Database with game 1 and one review for it. -/
def dbC4 : DB := { users := [], games := [gC4], reviews := [rC4], favorites := [] }

/-- Claim C4 (code-bug evidence): admin deletion of game 1 succeeds and
removes the game, but the review for game 1 survives, because the cascade
deletes by the nonexistent document field `game` (the schema field is
`gameId`). -/
theorem C4_game_delete_leaves_reviews :
    adminDeleteGame dbC4 1 =
      Except.ok { users := [], games := [], reviews := [rC4], favorites := [] } ∧
    reviewDocField rC4 "game" = none ∧
    rC4.gameId = 1 := ⟨rfl, rfl, rfl⟩

/-- Database for the C5 evidence: user 1 has an avatar, a review and a
favorite. -/
def dbC5 : DB :=
  { users := [⟨1, some "https://res.cloudinary.example/a.png"⟩],
    games := [⟨2, "g", "d", 5, 1⟩],
    reviews := [⟨1, 1, 2, 5, "a", 1⟩],
    favorites := [⟨1, 2, 3⟩] }

/-- Claim C5 (code-bug evidence): account deletion for a user with a
non-null avatar fails with an unexpected error (the avatar branch uses the
never-imported `path`/`fs` modules), so the user's review and favorite stay
and no aggregate is rewritten. -/
theorem C5_delete_account_crashes_with_avatar :
    dbC5.reviews.any (fun r => r.userId == 1) = true ∧
    dbC5.favorites.any (fun f => f.userId == 1) = true ∧
    deleteAccount dbC5 1 = Except.error AccountError.unexpected :=
  ⟨rfl, rfl, rfl⟩

/-- Claim C7 (code-bug evidence): the catalog search hands the raw search
string to the regex engine: for the input `"("` the pattern used is `"("`,
which is not well formed (unmatched group opener), while the sanitizer —
defined in `utils/helpers.js` but never invoked — would have produced the
well-formed escaped pattern. -/
theorem C7_search_pattern_not_escaped :
    searchGamesPattern "(" = "(" ∧
    regexParensOk (searchGamesPattern "(") = false ∧
    sanitizeSearchQuery "(" = "\\(" ∧
    regexParensOk (sanitizeSearchQuery "(") = true :=
  ⟨rfl, rfl, rfl, rfl⟩

/-- Claim C6: adding a favorite fails with NotFound when the game does not
exist and with Conflict when the (user, game) pair is already a favorite,
and otherwise inserts the pair with the current timestamp; removing a
favorite fails with NotFound when the pair does not exist and otherwise
deletes it (leaving no favorite for the pair, under the unique index). -/
theorem C6_favorites_add_remove (db : DB) (u g now : Nat) :
    (db.games.any (fun gm => gm.id == g) = false →
      addToFavorites db u g now = .error .notFound) ∧
    (db.games.any (fun gm => gm.id == g) = true →
      db.favorites.any (isFavPair u g) = true →
      addToFavorites db u g now = .error .conflict) ∧
    (db.games.any (fun gm => gm.id == g) = true →
      db.favorites.any (isFavPair u g) = false →
      addToFavorites db u g now =
        .ok { db with favorites := db.favorites ++ [⟨u, g, now⟩] }) ∧
    (db.favorites.any (isFavPair u g) = false →
      removeFromFavorites db u g = .error .notFound) ∧
    (db.favorites.any (isFavPair u g) = true →
      removeFromFavorites db u g =
        .ok { db with favorites := db.favorites.eraseP (isFavPair u g) } ∧
      (UniqueFavoritePairs db.favorites →
        (db.favorites.eraseP (isFavPair u g)).filter (isFavPair u g) = [])) := by
  refine ⟨?_, ?_, ?_, ?_, ?_⟩
  · intro h
    simp [addToFavorites, h]
  · intro h1 h2
    simp [addToFavorites, h1, h2]
  · intro h1 h2
    simp [addToFavorites, h1, h2]
  · intro h
    simp [removeFromFavorites, h]
  · intro h
    refine ⟨by simp [removeFromFavorites, h], fun huniq => ?_⟩
    exact filter_eraseP_eq_nil _ _ (favPairCount_le_one db.favorites u g huniq)

/-- Concrete database for the C6 witness: one game, no favorites. -/
def dbW6 : DB :=
  { users := [], games := [⟨1, "t", "d", 0, 0⟩], reviews := [], favorites := [] }

/-- Witness for C6 at a concrete database (successful add path). -/
theorem C6_witness :
    dbW6.games.any (fun gm => gm.id == 1) = true ∧
    dbW6.favorites.any (isFavPair 1 1) = false ∧
    addToFavorites dbW6 1 1 7 =
      .ok { dbW6 with favorites := dbW6.favorites ++ [⟨1, 1, 7⟩] } :=
  ⟨rfl, rfl, (C6_favorites_add_remove dbW6 1 1 7).2.2.1 rfl rfl⟩

/-- Claim C8: for every filter and every page number beyond the last page,
the catalog list returns an empty list with `hasNextPage = false`,
`hasPreviousPage = true` when `page > 1`, and `totalGames`/`totalPages`
reflecting the count of all games matching the filter. -/
theorem C8_pagination_beyond_last (games : List Game) (filter : Game → Bool)
    (le : Game → Game → Bool) (page limit : Nat) (hl : 1 ≤ limit)
    (hp : ceilDiv (games.filter filter).length (min limit 100) < page) :
    (searchGames games filter le page limit).data = [] ∧
    (searchGames games filter le page limit).pagination.hasNextPage = false ∧
    (1 < page →
      (searchGames games filter le page limit).pagination.hasPreviousPage = true) ∧
    (searchGames games filter le page limit).pagination.totalGames =
      (games.filter filter).length ∧
    (searchGames games filter le page limit).pagination.totalPages =
      ceilDiv (games.filter filter).length (min limit 100) := by
  have hs0 : 0 < min limit 100 := lt_min hl (by norm_num)
  have hskip : (games.filter filter).length ≤ skipOf page limit := by
    have hq : ceilDiv (games.filter filter).length (min limit 100) ≤ page - 1 := by
      omega
    have h1 := le_ceilDiv_mul (games.filter filter).length (min limit 100) hs0
    have h2 : ceilDiv (games.filter filter).length (min limit 100) * min limit 100 ≤
        (page - 1) * limit :=
      Nat.mul_le_mul hq (min_le_left _ _)
    exact le_trans h1 h2
  have hdata : (sortListBy le (games.filter filter)).drop (skipOf page limit) = [] := by
    apply List.drop_eq_nil_of_le
    rw [length_sortListBy]
    exact hskip
  refine ⟨?_, ?_, ?_, rfl, rfl⟩
  · show ((sortListBy le (games.filter filter)).drop (skipOf page limit)).take
      (min limit 100) = []
    rw [hdata]
    exact List.take_nil
  · show decide (page < ceilDiv (games.filter filter).length (min limit 100)) = false
    exact decide_eq_false (by omega)
  · intro h
    exact decide_eq_true h

/-- Concrete game for the C8 and C10 witnesses. -/
def gW8 : Game := ⟨1, "t", "d", 0, 0⟩

/-- Witness for C8 at a concrete catalog (page 5 of a 1-game catalog). -/
theorem C8_witness :
    (1:Nat) ≤ 2 ∧
    ceilDiv ([gW8].filter (fun _ => true)).length (min 2 100) < 5 ∧
    (searchGames [gW8] (fun _ => true) (fun _ _ => true) 5 2).data = [] :=
  ⟨by norm_num, by decide,
    (C8_pagination_beyond_last [gW8] (fun _ => true) (fun _ _ => true) 5 2
      (by norm_num) (by decide)).1⟩

/-- Claim C10: catalog and favorites pagination clamp the returned page to
at most 100 records, but compute the skip as `(page - 1) * limit` from the
unclamped requested page size while `totalPages` is computed from the
clamped size; hence for a requested size above 100, consecutive pages are
spaced by the requested size even though each page returns at most 100
records. -/
theorem C10_skip_unclamped_limit_clamped (games : List Game)
    (filter : Game → Bool) (le : Game → Game → Bool)
    (favorites : List Favorite) (u page limit : Nat) (hp : 1 ≤ page) :
    (searchGames games filter le page limit).data.length ≤ 100 ∧
    (getUserFavorites favorites u page limit).favorites.length ≤ 100 ∧
    (searchGames games filter le page limit).data =
      ((sortListBy le (games.filter filter)).drop
        (skipOf page limit)).take (min limit 100) ∧
    (getUserFavorites favorites u page limit).favorites =
      ((sortListBy recentFirst (favorites.filter (fun f => f.userId == u))).drop
        (skipOf page limit)).take (min limit 100) ∧
    (searchGames games filter le page limit).pagination.totalPages =
      ceilDiv (games.filter filter).length (min limit 100) ∧
    (getUserFavorites favorites u page limit).pagination.totalPages =
      ceilDiv (favorites.filter (fun f => f.userId == u)).length (min limit 100) ∧
    skipOf (page + 1) limit - skipOf page limit = limit := by
  have hlen : ∀ {α : Type} (l : List α), (l.take (min limit 100)).length ≤ 100 := by
    intro α l
    rw [List.length_take]
    exact le_trans (min_le_left _ _) (min_le_right _ _)
  refine ⟨hlen _, hlen _, rfl, rfl, rfl, rfl, ?_⟩
  obtain ⟨k, rfl⟩ := Nat.exists_eq_add_of_le hp
  unfold skipOf
  have h1 : 1 + k + 1 - 1 = k + 1 := by omega
  have h2 : 1 + k - 1 = k := by omega
  rw [h1, h2, Nat.succ_mul]
  omega

/-- Witness for C10 at a concrete request (page 2, requested size 150). -/
theorem C10_witness :
    (1:Nat) ≤ 2 ∧
    (searchGames [gW8] (fun _ => true) (fun _ _ => true) 2 150).data.length ≤ 100 :=
  ⟨by norm_num,
    (C10_skip_unclamped_limit_clamped [gW8] (fun _ => true) (fun _ _ => true)
      [] 1 2 150 (by norm_num)).1⟩

/-- Specification of the success path of `submitReview`: exactly one review
for the pair remains, it is the returned review carrying the submitted
rating and content, the flag tells whether the create path was taken, the
unique index is preserved, and the game's aggregate is the recomputation
over the updated review store. -/
theorem submitReview_ok_spec (db : DB) (u g rating : Nat) (content : String)
    (newId now : Nat) (huniq : UniquePairs db.reviews) (res : SubmitResult)
    (h : submitReview db u g rating content newId now = .ok res) :
    pairCount res.db.reviews u g = 1 ∧
    res.review ∈ res.db.reviews ∧
    isPair u g res.review = true ∧
    res.review.rating = rating ∧
    res.review.content = jsTrim content ∧
    (res.isNewReview = true ↔ db.reviews.find? (isPair u g) = none) ∧
    UniquePairs res.db.reviews ∧
    (∀ gm ∈ res.db.games, gm.id = g →
      gm.totalReviews = (reviewsFor res.db.reviews g).length ∧
      gm.averageRating = roundTo2 (meanRating (reviewsFor res.db.reviews g))) := by
  unfold submitReview at h
  split at h
  · exact Except.noConfusion h
  · split at h
    · exact Except.noConfusion h
    · split at h
      case _ r heq =>
        injection h with h
        subst h
        refine ⟨?_, ?_, ?_, rfl, rfl, ?_, ?_, ?_⟩
        · show ((updateFirstReview (isPair u g) (overwriteReview rating content)
            db.reviews).filter (isPair u g)).length = 1
          rw [updateFirstReview_filter_length (isPair u g)
            (overwriteReview rating content) (fun x hx => hx)]
          rw [filter_pair_eq_of_find? db.reviews u g r huniq heq]
          rfl
        · exact find?_updateFirstReview_mem (isPair u g)
            (overwriteReview rating content) db.reviews r heq
        · have hx : isPair u g r = true := List.find?_some heq
          exact hx
        · simp [heq]
        · exact uniquePairs_updateFirstReview (isPair u g)
            (overwriteReview rating content) (fun x => ⟨rfl, rfl⟩)
            db.reviews huniq
        · intro gm hgm hid
          exact updateGameRating_games_spec
            { db with reviews := (updateFirstReview (isPair u g)
                (overwriteReview rating content) db.reviews) }
            g gm hgm hid
      case _ heq =>
        injection h with h
        subst h
        have hnone := List.find?_eq_none.mp heq
        refine ⟨?_, ?_, ?_, rfl, rfl, ?_, ?_, ?_⟩
        · show ((db.reviews ++
            [(⟨newId, u, g, rating, jsTrim content, now⟩ : Review)]).filter
            (isPair u g)).length = 1
          rw [List.filter_append]
          rw [List.filter_eq_nil_iff.mpr (fun x hx => by
            simpa using hnone x hx)]
          simp [isPair]
        · exact List.mem_append_right _ (List.mem_singleton.mpr rfl)
        · simp [isPair]
        · simp [heq]
        · refine uniquePairs_append db.reviews _ huniq ?_
          intro x hx
          have hnp : ¬ isPair u g x = true := by simpa using hnone x hx
          have := (not_and_or).mp (fun hc => hnp ((isPair_eq u g x).mpr hc))
          simpa using this
        · intro gm hgm hid
          exact updateGameRating_games_spec
            { db with reviews :=
                (db.reviews ++ [⟨newId, u, g, rating, jsTrim content, now⟩]) }
            g gm hgm hid

/-- Claim C2: review submission validates the game exists (else NotFound)
and the rating/content bounds (else ValidationFailed); it overwrites the
existing review for the (identity, game) pair or inserts a new one,
triggers the rating aggregator, and returns the review with a flag for the
path taken; a second submission for the same pair leaves exactly one review
for the pair, carrying the latest rating. -/
theorem C2_submit_review_upsert (db : DB) (u g rating : Nat) (content : String)
    (newId now : Nat) (huniq : UniquePairs db.reviews) :
    (validReviewInput rating content = false →
      submitReview db u g rating content newId now = .error .validationFailed) ∧
    (validReviewInput rating content = true →
      db.games.any (fun gm => gm.id == g) = false →
      submitReview db u g rating content newId now = .error .notFound) ∧
    (∀ res, submitReview db u g rating content newId now = .ok res →
      pairCount res.db.reviews u g = 1 ∧
      res.review ∈ res.db.reviews ∧ isPair u g res.review = true ∧
      res.review.rating = rating ∧ res.review.content = jsTrim content ∧
      (res.isNewReview = true ↔ db.reviews.find? (isPair u g) = none) ∧
      (∀ gm ∈ res.db.games, gm.id = g →
        gm.totalReviews = (reviewsFor res.db.reviews g).length ∧
        gm.averageRating = roundTo2 (meanRating (reviewsFor res.db.reviews g)))) ∧
    (∀ rating₂ content₂ newId₂ now₂ res₁ res₂,
      submitReview db u g rating content newId now = .ok res₁ →
      submitReview res₁.db u g rating₂ content₂ newId₂ now₂ = .ok res₂ →
      pairCount res₂.db.reviews u g = 1 ∧
      ∀ r ∈ res₂.db.reviews, isPair u g r = true → r.rating = rating₂) := by
  refine ⟨?_, ?_, ?_, ?_⟩
  · intro hv
    simp [submitReview, hv]
  · intro hv hgame
    simp [submitReview, hv, hgame]
  · intro res h
    obtain ⟨s1, s2, s3, s4, s5, s6, _, s8⟩ :=
      submitReview_ok_spec db u g rating content newId now huniq res h
    exact ⟨s1, s2, s3, s4, s5, s6, s8⟩
  · intro rating₂ content₂ newId₂ now₂ res₁ res₂ h1 h2
    obtain ⟨_, _, _, _, _, _, hu1, _⟩ :=
      submitReview_ok_spec db u g rating content newId now huniq res₁ h1
    obtain ⟨t1, t2, t3, t4, _, _, _, _⟩ :=
      submitReview_ok_spec res₁.db u g rating₂ content₂ newId₂ now₂ hu1 res₂ h2
    refine ⟨t1, ?_⟩
    intro r hr hpr
    have h1' : r ∈ res₂.db.reviews.filter (isPair u g) :=
      List.mem_filter.mpr ⟨hr, hpr⟩
    have h2' : res₂.review ∈ res₂.db.reviews.filter (isPair u g) :=
      List.mem_filter.mpr ⟨t2, t3⟩
    obtain ⟨x, hx⟩ := List.length_eq_one.mp t1
    rw [hx] at h1' h2'
    have e1 : r = x := by simpa using h1'
    have e2 : res₂.review = x := by simpa using h2'
    rw [e1, ← e2, t4]

/-- Concrete database for the C2 witness: one game, no reviews. -/
def dbW2 : DB :=
  { users := [], games := [⟨1, "t", "d", 0, 0⟩], reviews := [], favorites := [] }

/-- The review created by the C2 witness run. -/
def rW2 : Review := ⟨10, 1, 1, 5, jsTrim "nice", 100⟩

/-- The submit result of the C2 witness run. -/
def resW2 : SubmitResult :=
  { db := updateGameRating { dbW2 with reviews := dbW2.reviews ++ [rW2] } 1,
    review := rW2, isNewReview := true }

/-- Witness for C2 at a concrete database (create path). -/
theorem C2_witness :
    UniquePairs dbW2.reviews ∧ pairCount resW2.db.reviews 1 1 = 1 := by
  have hu : UniquePairs dbW2.reviews := List.Pairwise.nil
  have h : submitReview dbW2 1 1 5 "nice" 10 100 = .ok resW2 := rfl
  exact ⟨hu, ((C2_submit_review_upsert dbW2 1 1 5 "nice" 10 100 hu).2.2.1 resW2 h).1⟩

/-- Claim C9: listing a game's reviews returns all reviews for the game
ordered newest-first, except that when the requesting identity has a review
for the game, that review appears first (and exactly once), with the
remaining reviews following newest-first. -/
theorem C9_game_reviews_requester_first (reviews : List Review) (g u : Nat)
    (huniq : UniquePairs reviews) :
    (List.Sorted newerFirst (getGameReviews reviews g none) ∧
      List.Perm (getGameReviews reviews g none) (reviewsFor reviews g)) ∧
    (∀ ur, reviews.find? (isPair u g) = some ur →
      (getGameReviews reviews g (some u)).head? = some ur ∧
      List.Perm (getGameReviews reviews g (some u)) (reviewsFor reviews g) ∧
      ((getGameReviews reviews g (some u)).filter
        (fun r => r.userId == u)).length = 1 ∧
      List.Sorted newerFirst (getGameReviews reviews g (some u)).tail) ∧
    (reviews.find? (isPair u g) = none →
      List.Sorted newerFirst (getGameReviews reviews g (some u)) ∧
      List.Perm (getGameReviews reviews g (some u)) (reviewsFor reviews g)) := by
  refine ⟨⟨?_, ?_⟩, ?_, ?_⟩
  · exact List.sorted_insertionSort newerFirst _
  · exact List.perm_insertionSort newerFirst _
  · intro ur hur
    have hpr : isPair u g ur = true := List.find?_some hur
    obtain ⟨hu1, hg1⟩ := (isPair_eq u g ur).mp hpr
    have hres : getGameReviews reviews g (some u) =
        ur :: sortNewestFirst
          (reviews.filter (fun r => r.gameId == g && r.userId != u)) := by
      simp only [getGameReviews, hur]
    have hsplit : List.Perm (reviews.filter (fun r => r.gameId == g))
        ((reviews.filter fun x => x.gameId == g && x.userId == u) ++
          (reviews.filter fun x => x.gameId == g && !(x.userId == u))) :=
      filter_perm_split _ _ _
    have e1 : (reviews.filter fun x => x.gameId == g && x.userId == u) = [ur] := by
      have hc : ∀ x ∈ reviews, (x.gameId == g && x.userId == u) = isPair u g x := by
        intro x _
        simp [isPair, Bool.and_comm]
      rw [List.filter_congr hc]
      exact filter_pair_eq_of_find? reviews u g ur huniq hur
    have e2 : (reviews.filter fun x => x.gameId == g && !(x.userId == u)) =
        reviews.filter (fun r => r.gameId == g && r.userId != u) := by
      apply List.filter_congr
      intro x _
      simp [bne]
    rw [e1, e2] at hsplit
    have hperm : List.Perm
        (ur :: sortNewestFirst
          (reviews.filter (fun r => r.gameId == g && r.userId != u)))
        (reviewsFor reviews g) := by
      refine List.Perm.trans ?_ hsplit.symm
      exact (List.perm_insertionSort newerFirst _).cons ur
    have hnomatch : ∀ x ∈ sortNewestFirst
        (reviews.filter (fun r => r.gameId == g && r.userId != u)),
        ¬ (x.userId == u) = true := by
      intro x hx
      have hx' : x ∈ reviews.filter (fun r => r.gameId == g && r.userId != u) :=
        (List.mem_insertionSort newerFirst).mp hx
      rcases List.mem_filter.mp hx' with ⟨_, hpred⟩
      rcases (by simpa using hpred :
        (x.gameId == g) = true ∧ (x.userId != u) = true) with ⟨_, h2⟩
      simpa [bne] using h2
    refine ⟨?_, ?_, ?_, ?_⟩
    · rw [hres]
      rfl
    · rw [hres]
      exact hperm
    · rw [hres]
      rw [List.filter_cons_of_pos (by simp [hu1])]
      rw [List.filter_eq_nil_iff.mpr hnomatch]
      rfl
    · rw [hres]
      exact List.sorted_insertionSort newerFirst _
  · intro hnone
    have hval := List.find?_eq_none.mp hnone
    have hbase_eq : reviews.filter (fun r => r.gameId == g && r.userId != u) =
        reviewsFor reviews g := by
      show _ = reviews.filter (fun r => r.gameId == g)
      apply List.filter_congr
      intro x hxmem
      by_cases hg' : (x.gameId == g) = true
      · have hnp : ¬ isPair u g x = true := by simpa using hval x hxmem
        have hne : x.userId ≠ u := by
          intro hcontra
          exact hnp ((isPair_eq u g x).mpr ⟨hcontra, beq_iff_eq.mp hg'⟩)
        simp [hg', bne, hne]
      · have hg'' : (x.gameId == g) = false := by simpa using hg'
        simp [hg'']
    have hres : getGameReviews reviews g (some u) =
        sortNewestFirst (reviews.filter (fun r => r.gameId == g && r.userId != u)) := by
      simp only [getGameReviews, hnone]
    rw [hres, hbase_eq]
    exact ⟨List.sorted_insertionSort newerFirst _, List.perm_insertionSort newerFirst _⟩

/-- Reviews for the C9 witness. -/
def rW9a : Review := ⟨1, 1, 1, 5, "a", 1⟩

/-- Second (newer) review for the C9 witness, by another user. -/
def rW9b : Review := ⟨2, 2, 1, 3, "b", 5⟩

/-- Review store for the C9 witness. -/
def revW9 : List Review := [rW9a, rW9b]

/-- Witness for C9 at a concrete review store: user 1's own review leads
even though user 2's is newer. -/
theorem C9_witness :
    UniquePairs revW9 ∧
    revW9.find? (isPair 1 1) = some rW9a ∧
    (getGameReviews revW9 1 (some 1)).head? = some rW9a := by
  have hu : UniquePairs revW9 := by
    refine List.pairwise_cons.mpr ⟨?_, List.pairwise_singleton _ _⟩
    intro b hb
    have hb' : b = rW9b := by simpa using hb
    subst hb'
    left
    decide
  have hf : revW9.find? (isPair 1 1) = some rW9a := rfl
  exact ⟨hu, hf,
    ((C9_game_reviews_requester_first revW9 1 1 hu).2.1 rW9a hf).1⟩

end GameHub
